import Mathlib

/-!
Shallow embedding of the `AnonVoteFHE` contract (`src/contracts/index.sol`)
of the web3-poll-palace repository.

Modelling conventions:
* Solidity `address` is modelled as `Nat` (only equality is used by the code).
* `uint256` values are modelled as `Nat` (all arithmetic in the contract is
  checked Solidity 0.8 arithmetic on counters; no wrap-around is reachable).
* `bytes` payloads are modelled as `List Nat`, one entry per byte.
* `block.timestamp` and `msg.sender` are explicit parameters of each call.
* A reverting call returns `Except.error e`; EVM revert semantics (all state
  rolled back) is captured by `stepLedger`, which keeps the pre-state on error.
* The out-of-bounds array accesses `revealedCounts[choiceIndex]` (line 145) and
  `options[choiceIndex]` (line 149) would revert with a Solidity panic; this is
  the `Err.indexPanic` branch of `castVote`.
* The `Vote.createdAt` field is a ghost field (the contract does not store the
  creation timestamp); it is written by `createVote`, never read by any
  operation, and is used only to state properties about creation time.
-/

/-- The named errors declared by the contract, plus `indexPanic` for the
Solidity array-bounds panic (not a named error in the source). -/
inductive Err where
  | VoteNotFound
  | VoteExpired
  | VoteNotExpired
  | AlreadyVoted
  | InvalidOption
  | VoteAlreadyRevealed
  | NotVoteCreator
  | InvalidDeadline
  | EmptyTitle
  | NoOptions
  | TooManyOptions
  | indexPanic
deriving DecidableEq

/-- The `Vote` struct of the contract.  `createdAt` is a ghost field recording
the `block.timestamp` of creation; no operation reads it. -/
structure Vote where
  title : String
  description : String
  options : List String
  deadline : Nat
  totalVoters : Nat
  isActive : Bool
  isRevealed : Bool
  creator : Nat
  hasVoted : Nat → Bool
  encryptedVotes : Nat → List Nat
  revealedCounts : List Nat
  createdAt : Nat

/-- The zero-initialized `Vote` a Solidity mapping returns for an id that was
never written. -/
def defaultVote : Vote :=
  { title := "", description := "", options := [], deadline := 0,
    totalVoters := 0, isActive := false, isRevealed := false, creator := 0,
    hasVoted := fun _ => false, encryptedVotes := fun _ => [],
    revealedCounts := [], createdAt := 0 }

/-- The contract storage: the `votes` mapping, `nextVoteId`, the
`voteRevealRequested` mapping, and the `Ownable` owner. -/
structure Ledger where
  owner : Nat
  nextVoteId : Nat
  votes : Nat → Vote
  voteRevealRequested : Nat → Bool

/-- Storage right after deployment by `o`. -/
def Ledger.init (o : Nat) : Ledger :=
  { owner := o, nextVoteId := 0, votes := fun _ => defaultVote,
    voteRevealRequested := fun _ => false }

/-- Write a single slot of the `votes` mapping. -/
def setVote (l : Ledger) (voteId : Nat) (v : Vote) : Ledger :=
  { l with votes := fun j => if j = voteId then v else l.votes j }

/-- `createVote` (lines 78-106): validates title, option count and deadline,
allocates id `nextVoteId`, stores the new poll with a zero-filled
`revealedCounts` of length `options.length`, and returns the id. -/
def createVote (l : Ledger) (title description : String) (options : List String)
    (deadline sender now : Nat) : Except Err (Ledger × Nat) :=
  if title = "" then .error .EmptyTitle
  else if options.length = 0 then .error .NoOptions
  else if 10 < options.length then .error .TooManyOptions
  else if deadline ≤ now then .error .InvalidDeadline
  else
    let voteId := l.nextVoteId
    let newVote : Vote :=
      { title := title, description := description, options := options,
        deadline := deadline, totalVoters := 0, isActive := true,
        isRevealed := false, creator := sender,
        hasVoted := fun _ => false, encryptedVotes := fun _ => [],
        revealedCounts := List.replicate options.length 0, createdAt := now }
    .ok ({ setVote l voteId newVote with nextVoteId := voteId + 1 }, voteId)

/-- The choice-index computation of `castVote` (lines 127-137): start from 0;
for a payload of length ≥ 2, decode the two bytes big-endian only when the
length is exactly 2, then fall back to 0 when the result is out of range. -/
def choiceIndexOf (encryptedChoice : List Nat) (numOptions : Nat) : Nat :=
  if 2 ≤ encryptedChoice.length then
    let c : Nat :=
      if encryptedChoice.length = 2 then
        256 * encryptedChoice.getD 0 0 + encryptedChoice.getD 1 0
      else 0
    if numOptions ≤ c then 0 else c
  else 0

/-- The storage writes of a successful `castVote` (lines 139-146) on one
`Vote` record. -/
def castUpdate (vote : Vote) (encryptedChoice : List Nat) (sender : Nat) : Vote :=
  let choiceIndex := choiceIndexOf encryptedChoice vote.options.length
  { vote with
    encryptedVotes := fun a => if a = sender then encryptedChoice else vote.encryptedVotes a,
    hasVoted := fun a => if a = sender then true else vote.hasVoted a,
    totalVoters := vote.totalVoters + 1,
    revealedCounts := vote.revealedCounts.set choiceIndex
      (vote.revealedCounts.getD choiceIndex 0 + 1),
    isRevealed := true }

/-- `castVote` (lines 115-150): existence, deadline and double-vote checks in
order, then decode the payload, record the vote, increment `totalVoters` and
`revealedCounts[choiceIndex]`, and set `isRevealed`. -/
def castVote (l : Ledger) (voteId : Nat) (encryptedChoice : List Nat)
    (sender now : Nat) : Except Err Ledger :=
  let vote := l.votes voteId
  if vote.isActive = false then .error .VoteNotFound
  else if vote.deadline ≤ now then .error .VoteExpired
  else if vote.hasVoted sender then .error .AlreadyVoted
  else
    let choiceIndex := choiceIndexOf encryptedChoice vote.options.length
    if choiceIndex < vote.revealedCounts.length ∧ choiceIndex < vote.options.length then
      .ok (setVote l voteId (castUpdate vote encryptedChoice sender))
    else .error .indexPanic

/-- `revealVoteResults` (lines 159-174): existence, authorization, expiry,
not-yet-revealed and length checks in order, then wholesale replacement of
`revealedCounts` and setting of `isRevealed` and `voteRevealRequested`. -/
def revealVoteResults (l : Ledger) (voteId : Nat) (decryptedCounts : List Nat)
    (sender now : Nat) : Except Err Ledger :=
  let vote := l.votes voteId
  if vote.isActive = false then .error .VoteNotFound
  else if sender ≠ vote.creator ∧ sender ≠ l.owner then .error .NotVoteCreator
  else if now < vote.deadline then .error .VoteNotExpired
  else if vote.isRevealed then .error .VoteAlreadyRevealed
  else if decryptedCounts.length ≠ vote.options.length then .error .InvalidOption
  else
    let newVote : Vote :=
      { vote with revealedCounts := decryptedCounts, isRevealed := true }
    .ok { setVote l voteId newVote with
          voteRevealRequested := fun j => if j = voteId then true else l.voteRevealRequested j }

/-- `endVoteEarly` (lines 180-187): existence and authorization checks, then
set `deadline` to the current time. -/
def endVoteEarly (l : Ledger) (voteId sender now : Nat) : Except Err Ledger :=
  let vote := l.votes voteId
  if vote.isActive = false then .error .VoteNotFound
  else if sender ≠ vote.creator ∧ sender ≠ l.owner then .error .NotVoteCreator
  else
    .ok (setVote l voteId { vote with deadline := now })

/-- `hasAddressVoted` (lines 233-235): a view with no existence check. -/
def hasAddressVoted (l : Ledger) (voteId addr : Nat) : Bool :=
  (l.votes voteId).hasVoted addr

/-- `getTotalVotes` (lines 240-242). -/
def getTotalVotes (l : Ledger) : Nat :=
  l.nextVoteId

/-- `isVoteExpired` (lines 247-250): `block.timestamp >= vote.deadline`, with
no existence check. -/
def isVoteExpired (l : Ledger) (voteId now : Nat) : Bool :=
  decide ((l.votes voteId).deadline ≤ now)

/-- A transaction: one external call to a state-changing function, carrying its
`msg.sender` and `block.timestamp`. -/
inductive Op where
  | create (sender : Nat) (title description : String) (options : List String)
      (deadline now : Nat)
  | cast (sender voteId : Nat) (encryptedChoice : List Nat) (now : Nat)
  | reveal (sender voteId : Nat) (decryptedCounts : List Nat) (now : Nat)
  | endEarly (sender voteId : Nat) (now : Nat)

/-- The `block.timestamp` of a transaction. -/
def Op.time : Op → Nat
  | .create _ _ _ _ _ now => now
  | .cast _ _ _ now => now
  | .reveal _ _ _ now => now
  | .endEarly _ _ now => now

/-- Run one transaction, propagating any revert. -/
def applyOp (l : Ledger) : Op → Except Err Ledger
  | .create sender title description options deadline now =>
      (createVote l title description options deadline sender now).map Prod.fst
  | .cast sender voteId encryptedChoice now =>
      castVote l voteId encryptedChoice sender now
  | .reveal sender voteId decryptedCounts now =>
      revealVoteResults l voteId decryptedCounts sender now
  | .endEarly sender voteId now =>
      endVoteEarly l voteId sender now

/-- Run one transaction with EVM revert semantics: a reverting call leaves the
storage unchanged. -/
def stepLedger (l : Ledger) (op : Op) : Ledger :=
  match applyOp l op with
  | .ok l' => l'
  | .error _ => l

/-- Run a sequence of transactions from a given storage. -/
def execOps (l : Ledger) (ops : List Op) : Ledger :=
  ops.foldl stepLedger l

/-- A storage state reachable from deployment by owner `o`. -/
def Reachable (o : Nat) (l : Ledger) : Prop :=
  ∃ ops : List Op, execOps (Ledger.init o) ops = l

/-- Timestamps of a transaction list are non-decreasing and bounded below by
`t` (the monotonic-clock assumption for block timestamps). -/
def MonoFrom (t : Nat) : List Op → Prop
  | [] => True
  | op :: ops => t ≤ op.time ∧ MonoFrom op.time ops

/-! ## Well-formedness invariant -/

/-- Storage well-formedness: unallocated ids hold the zero record; tallies and
options have the same length; active polls were created with 1..10 options;
an unrevealed poll has no voters yet; and while no `revealVoteResults` has
succeeded on a poll, its tally sums to `totalVoters`. -/
def WF (l : Ledger) : Prop :=
  ∀ id : Nat,
    (l.nextVoteId ≤ id → l.votes id = defaultVote) ∧
    (l.votes id).revealedCounts.length = (l.votes id).options.length ∧
    ((l.votes id).isActive = true →
      0 < (l.votes id).options.length ∧ (l.votes id).options.length ≤ 10) ∧
    ((l.votes id).isRevealed = false → (l.votes id).totalVoters = 0) ∧
    (l.voteRevealRequested id = false →
      (l.votes id).revealedCounts.sum = (l.votes id).totalVoters)

lemma wf_init (o : Nat) : WF (Ledger.init o) := by
  intro id
  simp [Ledger.init, defaultVote]

lemma active_lt_nextVoteId {l : Ledger} {id : Nat} (hwf : WF l)
    (hact : (l.votes id).isActive = true) : id < l.nextVoteId := by
  by_contra hge
  have hd := (hwf id).1 (Nat.le_of_not_lt hge)
  rw [hd] at hact
  exact absurd hact (by simp [defaultVote])

lemma sum_set_getD_add_one : ∀ (xs : List Nat) (i : Nat), i < xs.length →
    (xs.set i (xs.getD i 0 + 1)).sum = xs.sum + 1 := by
  intro xs
  induction xs with
  | nil => intro i hi; simp at hi
  | cons x tl ih =>
    intro i hi
    cases i with
    | zero =>
      show ((x + 1) :: tl).sum = (x :: tl).sum + 1
      rw [List.sum_cons, List.sum_cons]
      omega
    | succ j =>
      have hj : j < tl.length := by simpa using hi
      show (x :: tl.set j (tl.getD j 0 + 1)).sum = (x :: tl).sum + 1
      rw [List.sum_cons, List.sum_cons, ih j hj]
      omega

/-! ## Success-shape lemmas for the four operations -/

lemma createVote_ok {l : Ledger} {title description : String} {options : List String}
    {deadline sender now : Nat} {l' : Ledger} {vid : Nat}
    (h : createVote l title description options deadline sender now = .ok (l', vid)) :
    vid = l.nextVoteId ∧ title ≠ "" ∧ 0 < options.length ∧ options.length ≤ 10 ∧
      now < deadline ∧
      l' = { setVote l l.nextVoteId
              { title := title, description := description, options := options,
                deadline := deadline, totalVoters := 0, isActive := true,
                isRevealed := false, creator := sender,
                hasVoted := fun _ => false, encryptedVotes := fun _ => [],
                revealedCounts := List.replicate options.length 0, createdAt := now }
             with nextVoteId := l.nextVoteId + 1 } := by
  unfold createVote at h
  split_ifs at h with h1 h2 h3 h4
  injection h with h5
  injection h5 with h6 h7
  exact ⟨h7.symm, h1, Nat.pos_of_ne_zero h2, Nat.le_of_not_lt h3,
    Nat.lt_of_not_le h4, h6.symm⟩

lemma castVote_ok {l : Ledger} {voteId : Nat} {p : List Nat} {s t : Nat} {l' : Ledger}
    (h : castVote l voteId p s t = .ok l') :
    (l.votes voteId).isActive = true ∧ t < (l.votes voteId).deadline ∧
      (l.votes voteId).hasVoted s = false ∧
      choiceIndexOf p (l.votes voteId).options.length <
        (l.votes voteId).revealedCounts.length ∧
      choiceIndexOf p (l.votes voteId).options.length <
        (l.votes voteId).options.length ∧
      l' = setVote l voteId (castUpdate (l.votes voteId) p s) := by
  simp only [castVote] at h
  split_ifs at h with h1 h2 h3 h4
  injection h with h5
  refine ⟨?_, Nat.lt_of_not_le h2, ?_, h4.1, h4.2, h5.symm⟩
  · revert h1; cases (l.votes voteId).isActive <;> simp
  · revert h3; cases (l.votes voteId).hasVoted s <;> simp

lemma revealVoteResults_ok {l : Ledger} {voteId : Nat} {counts : List Nat}
    {s t : Nat} {l' : Ledger}
    (h : revealVoteResults l voteId counts s t = .ok l') :
    (l.votes voteId).isActive = true ∧
      (s = (l.votes voteId).creator ∨ s = l.owner) ∧
      (l.votes voteId).deadline ≤ t ∧
      (l.votes voteId).isRevealed = false ∧
      counts.length = (l.votes voteId).options.length ∧
      l' = { setVote l voteId
              { l.votes voteId with revealedCounts := counts, isRevealed := true }
             with voteRevealRequested :=
               fun j => if j = voteId then true else l.voteRevealRequested j } := by
  simp only [revealVoteResults] at h
  split_ifs at h with h1 h2 h3 h4 h5
  injection h with h6
  refine ⟨?_, ?_, Nat.le_of_not_lt h3, ?_, not_not.mp h5, h6.symm⟩
  · revert h1; cases (l.votes voteId).isActive <;> simp
  · rcases Decidable.not_and_iff_or_not.mp h2 with hc | hc
    · exact Or.inl (not_not.mp hc)
    · exact Or.inr (not_not.mp hc)
  · revert h4; cases (l.votes voteId).isRevealed <;> simp

lemma endVoteEarly_ok {l : Ledger} {voteId s t : Nat} {l' : Ledger}
    (h : endVoteEarly l voteId s t = .ok l') :
    (l.votes voteId).isActive = true ∧
      (s = (l.votes voteId).creator ∨ s = l.owner) ∧
      l' = setVote l voteId { l.votes voteId with deadline := t } := by
  simp only [endVoteEarly] at h
  split_ifs at h with h1 h2
  injection h with h3
  refine ⟨?_, ?_, h3.symm⟩
  · revert h1; cases (l.votes voteId).isActive <;> simp
  · rcases Decidable.not_and_iff_or_not.mp h2 with hc | hc
    · exact Or.inl (not_not.mp hc)
    · exact Or.inr (not_not.mp hc)

/-! ## Preservation of the invariant -/

lemma wf_createVote {l : Ledger} {title description : String} {options : List String}
    {deadline sender now : Nat} {l' : Ledger} {vid : Nat} (hwf : WF l)
    (h : createVote l title description options deadline sender now = .ok (l', vid)) :
    WF l' := by
  obtain ⟨hvid, hne, hpos, hle, hdl, hl'⟩ := createVote_ok h
  subst hl'
  intro id
  obtain ⟨w1, w2, w3, w4, w5⟩ := hwf id
  by_cases hid : id = l.nextVoteId
  · subst hid
    refine ⟨?_, ?_, ?_, ?_, ?_⟩
    · intro hge
      simp only [setVote] at hge
      omega
    · simp [setVote]
    · intro _
      simpa [setVote] using ⟨hpos, hle⟩
    · intro _
      simp [setVote]
    · intro _
      simp [setVote, List.sum_replicate]
  · refine ⟨?_, ?_, ?_, ?_, ?_⟩
    · intro hge
      simp only [setVote] at hge ⊢
      rw [if_neg hid]
      exact w1 (by omega)
    · simpa [setVote, hid] using w2
    · simpa [setVote, hid] using w3
    · simpa [setVote, hid] using w4
    · simpa [setVote, hid] using w5

lemma wf_castVote {l : Ledger} {voteId : Nat} {p : List Nat} {s t : Nat}
    {l' : Ledger} (hwf : WF l) (h : castVote l voteId p s t = .ok l') : WF l' := by
  obtain ⟨hact, hdl, hnv, hb1, hb2, hl'⟩ := castVote_ok h
  subst hl'
  have hlt : voteId < l.nextVoteId := active_lt_nextVoteId hwf hact
  intro id
  obtain ⟨w1, w2, w3, w4, w5⟩ := hwf id
  by_cases hid : id = voteId
  · subst hid
    refine ⟨?_, ?_, ?_, ?_, ?_⟩
    · intro hge
      simp only [setVote] at hge
      omega
    · simpa [setVote, castUpdate] using w2
    · simpa [setVote, castUpdate] using w3
    · intro hr
      simp [setVote, castUpdate] at hr
    · intro hflag
      simp only [setVote] at hflag
      show (if id = id then castUpdate (l.votes id) p s
          else l.votes id).revealedCounts.sum =
        (if id = id then castUpdate (l.votes id) p s
          else l.votes id).totalVoters
      rw [if_pos rfl]
      show ((l.votes id).revealedCounts.set
          (choiceIndexOf p (l.votes id).options.length)
          ((l.votes id).revealedCounts.getD
            (choiceIndexOf p (l.votes id).options.length) 0 + 1)).sum =
        (l.votes id).totalVoters + 1
      rw [sum_set_getD_add_one _ _ hb1, w5 hflag]
  · refine ⟨?_, ?_, ?_, ?_, ?_⟩
    · intro hge
      simp only [setVote] at hge ⊢
      rw [if_neg hid]
      exact w1 hge
    · simpa [setVote, hid] using w2
    · simpa [setVote, hid] using w3
    · simpa [setVote, hid] using w4
    · simpa [setVote, hid] using w5

lemma wf_revealVoteResults {l : Ledger} {voteId : Nat} {counts : List Nat}
    {s t : Nat} {l' : Ledger} (hwf : WF l)
    (h : revealVoteResults l voteId counts s t = .ok l') : WF l' := by
  obtain ⟨hact, hauth, hdl, hrev, hlen, hl'⟩ := revealVoteResults_ok h
  subst hl'
  have hlt : voteId < l.nextVoteId := active_lt_nextVoteId hwf hact
  intro id
  obtain ⟨w1, w2, w3, w4, w5⟩ := hwf id
  by_cases hid : id = voteId
  · subst hid
    refine ⟨?_, ?_, ?_, ?_, ?_⟩
    · intro hge
      simp only [setVote] at hge
      omega
    · simpa [setVote] using hlen
    · simpa [setVote] using w3
    · intro hr
      simp [setVote] at hr
    · intro hflag
      simp at hflag
  · refine ⟨?_, ?_, ?_, ?_, ?_⟩
    · intro hge
      simp only [setVote] at hge ⊢
      rw [if_neg hid]
      exact w1 hge
    · simpa [setVote, hid] using w2
    · simpa [setVote, hid] using w3
    · simpa [setVote, hid] using w4
    · intro hflag
      simp only [setVote, if_neg hid] at hflag ⊢
      exact w5 hflag

lemma wf_endVoteEarly {l : Ledger} {voteId s t : Nat} {l' : Ledger} (hwf : WF l)
    (h : endVoteEarly l voteId s t = .ok l') : WF l' := by
  obtain ⟨hact, hauth, hl'⟩ := endVoteEarly_ok h
  subst hl'
  have hlt : voteId < l.nextVoteId := active_lt_nextVoteId hwf hact
  intro id
  obtain ⟨w1, w2, w3, w4, w5⟩ := hwf id
  by_cases hid : id = voteId
  · subst hid
    refine ⟨?_, ?_, ?_, ?_, ?_⟩
    · intro hge
      simp only [setVote] at hge
      omega
    · simpa [setVote] using w2
    · simpa [setVote] using w3
    · simpa [setVote] using w4
    · simpa [setVote] using w5
  · refine ⟨?_, ?_, ?_, ?_, ?_⟩
    · intro hge
      simp only [setVote] at hge ⊢
      rw [if_neg hid]
      exact w1 hge
    · simpa [setVote, hid] using w2
    · simpa [setVote, hid] using w3
    · simpa [setVote, hid] using w4
    · simpa [setVote, hid] using w5

lemma stepLedger_error {l : Ledger} {op : Op} {e : Err}
    (h : applyOp l op = .error e) : stepLedger l op = l := by
  unfold stepLedger
  rw [h]

lemma stepLedger_ok {l l' : Ledger} {op : Op}
    (h : applyOp l op = .ok l') : stepLedger l op = l' := by
  unfold stepLedger
  rw [h]

lemma wf_step {l : Ledger} (hwf : WF l) (op : Op) : WF (stepLedger l op) := by
  cases hop : applyOp l op with
  | error e => rw [stepLedger_error hop]; exact hwf
  | ok l' =>
    rw [stepLedger_ok hop]
    cases op with
    | create sender title description options deadline now =>
      simp only [applyOp] at hop
      cases hcv : createVote l title description options deadline sender now with
      | error e => rw [hcv] at hop; cases hop
      | ok pr =>
        rw [hcv] at hop
        injection hop with hpr
        obtain ⟨l2, vid⟩ := pr
        cases hpr
        exact wf_createVote hwf hcv
    | cast sender voteId p now =>
      exact wf_castVote hwf hop
    | reveal sender voteId counts now =>
      exact wf_revealVoteResults hwf hop
    | endEarly sender voteId now =>
      exact wf_endVoteEarly hwf hop

lemma wf_execOps {l : Ledger} (hwf : WF l) (ops : List Op) : WF (execOps l ops) := by
  induction ops generalizing l with
  | nil => exact hwf
  | cons op tl ih =>
    simp only [execOps, List.foldl_cons]
    exact ih (wf_step hwf op)

lemma wf_reachable {o : Nat} {l : Ledger} (h : Reachable o l) : WF l := by
  obtain ⟨ops, hops⟩ := h
  rw [← hops]
  exact wf_execOps (wf_init o) ops

/-! ## Creation-time invariant under the monotonic clock -/

/-- At current time `t`, every active poll was created no later than `t` and
no later than its (current) deadline. -/
def TimeOK (t : Nat) (l : Ledger) : Prop :=
  ∀ id, (l.votes id).isActive = true →
    (l.votes id).createdAt ≤ t ∧ (l.votes id).createdAt ≤ (l.votes id).deadline

lemma timeok_mono {t t' : Nat} {l : Ledger} (h : TimeOK t l) (htt : t ≤ t') :
    TimeOK t' l := by
  intro id hact
  obtain ⟨h1, h2⟩ := h id hact
  exact ⟨le_trans h1 htt, h2⟩

lemma timeok_init (t o : Nat) : TimeOK t (Ledger.init o) := by
  intro id hact
  simp [Ledger.init, defaultVote] at hact

lemma timeok_step {t : Nat} {l : Ledger} (h : TimeOK t l) (op : Op)
    (hop : t ≤ op.time) : TimeOK op.time (stepLedger l op) := by
  cases hap : applyOp l op with
  | error e => rw [stepLedger_error hap]; exact timeok_mono h hop
  | ok l' =>
    rw [stepLedger_ok hap]
    cases op with
    | create sender title description options deadline now =>
      simp only [applyOp] at hap
      cases hcv : createVote l title description options deadline sender now with
      | error e => rw [hcv] at hap; cases hap
      | ok pr =>
        rw [hcv] at hap
        injection hap with hpr
        obtain ⟨l2, vid⟩ := pr
        cases hpr
        obtain ⟨hvid, _, _, _, hdl, hl2⟩ := createVote_ok hcv
        subst hl2
        simp only [Op.time] at hop ⊢
        intro id hact
        by_cases hid : id = l.nextVoteId
        · subst hid
          exact ⟨by simp [setVote], by simp [setVote, Nat.le_of_lt hdl]⟩
        · simp only [setVote, if_neg hid] at hact ⊢
          obtain ⟨h1, h2⟩ := h id hact
          exact ⟨le_trans h1 hop, h2⟩
    | cast sender voteId p now =>
      obtain ⟨hact', hdl', hnv', hb1, hb2, hl'⟩ := castVote_ok hap
      subst hl'
      simp only [Op.time] at hop ⊢
      intro id hact
      by_cases hid : id = voteId
      · subst hid
        simp only [setVote, if_pos rfl] at hact ⊢
        obtain ⟨h1, h2⟩ := h id (by simpa [castUpdate] using hact)
        exact ⟨le_trans h1 hop, by simpa [castUpdate] using h2⟩
      · simp only [setVote, if_neg hid] at hact ⊢
        obtain ⟨h1, h2⟩ := h id hact
        exact ⟨le_trans h1 hop, h2⟩
    | reveal sender voteId counts now =>
      obtain ⟨hact', hauth', hdl', hrev', hlen', hl'⟩ := revealVoteResults_ok hap
      subst hl'
      simp only [Op.time] at hop ⊢
      intro id hact
      by_cases hid : id = voteId
      · subst hid
        simp only [setVote, if_pos rfl] at hact ⊢
        obtain ⟨h1, h2⟩ := h id (by simpa using hact)
        exact ⟨le_trans h1 hop, by simpa using h2⟩
      · simp only [setVote, if_neg hid] at hact ⊢
        obtain ⟨h1, h2⟩ := h id hact
        exact ⟨le_trans h1 hop, h2⟩
    | endEarly sender voteId now =>
      obtain ⟨hact', hauth', hl'⟩ := endVoteEarly_ok hap
      subst hl'
      simp only [Op.time] at hop ⊢
      intro id hact
      by_cases hid : id = voteId
      · subst hid
        simp only [setVote, if_pos rfl] at hact ⊢
        obtain ⟨h1, h2⟩ := h id (by simpa using hact)
        exact ⟨le_trans h1 hop, le_trans h1 hop⟩
      · simp only [setVote, if_neg hid] at hact ⊢
        obtain ⟨h1, h2⟩ := h id hact
        exact ⟨le_trans h1 hop, h2⟩

lemma timeok_execOps {t : Nat} {l : Ledger} (h : TimeOK t l) {ops : List Op}
    (hm : MonoFrom t ops) : ∃ t', TimeOK t' (execOps l ops) := by
  induction ops generalizing l t with
  | nil => exact ⟨t, h⟩
  | cons op tl ih =>
    obtain ⟨h1, h2⟩ := hm
    simp only [execOps, List.foldl_cons]
    exact ih (timeok_step h op h1) h2

/-! ## Claim theorems -/

/-- The decoding policy as the specification words it: a payload of exactly
2 bytes is decoded as a big-endian unsigned integer and used as the index when
it is in range; any other payload, or an out-of-range decoded value, resolves
to index 0. -/
def specResolvedIndex (payload : List Nat) (numOptions : Nat) : Nat :=
  if payload.length = 2 ∧ 256 * payload.getD 0 0 + payload.getD 1 0 < numOptions
  then 256 * payload.getD 0 0 + payload.getD 1 0
  else 0

lemma choiceIndexOf_lt (p : List Nat) {n : Nat} (hn : 0 < n) :
    choiceIndexOf p n < n := by
  simp only [choiceIndexOf]
  split_ifs <;> omega

lemma choiceIndexOf_eq_spec (p : List Nat) {n : Nat} (hn : 0 < n) :
    choiceIndexOf p n = specResolvedIndex p n := by
  simp only [choiceIndexOf, specResolvedIndex]
  split_ifs <;> omega

/-- C1: a `castVote` call that passes the existence, deadline and double-vote
checks always succeeds; a payload of exactly 2 bytes is decoded big-endian and
used as the option index when below `options.length`, while any other payload
(or an out-of-range decoded value) resolves to index 0; in every case the vote
is counted: `totalVoters` grows by one and the entry of `revealedCounts` at the
resolved index (index 0 in the fallback cases) is incremented. -/
theorem castVote_decode_fallback (o : Nat) (l : Ledger) (vid : Nat)
    (p : List Nat) (s t : Nat) (hre : Reachable o l)
    (hact : (l.votes vid).isActive = true)
    (hdl : t < (l.votes vid).deadline)
    (hnv : (l.votes vid).hasVoted s = false) :
    ∃ l', castVote l vid p s t = .ok l' ∧
      (l'.votes vid).totalVoters = (l.votes vid).totalVoters + 1 ∧
      (l'.votes vid).revealedCounts =
        (l.votes vid).revealedCounts.set
          (specResolvedIndex p (l.votes vid).options.length)
          ((l.votes vid).revealedCounts.getD
            (specResolvedIndex p (l.votes vid).options.length) 0 + 1) := by
  have hwf := wf_reachable hre
  have hn : 0 < (l.votes vid).options.length := ((hwf vid).2.2.1 hact).1
  have hlen : (l.votes vid).revealedCounts.length = (l.votes vid).options.length :=
    (hwf vid).2.1
  have hci := choiceIndexOf_lt p hn
  refine ⟨setVote l vid (castUpdate (l.votes vid) p s), ?_, ?_, ?_⟩
  · simp [castVote, hact, hnv, not_le.mpr hdl, hlen, hci]
  · simp [setVote, castUpdate]
  · simp [setVote, castUpdate, choiceIndexOf_eq_spec p hn]

theorem castVote_decode_fallback_witness :
    ∃ l', castVote (execOps (Ledger.init 0)
        [Op.create 1 "t" "d" ["a", "b"] 10 0]) 0 [0, 0, 1] 2 5 = .ok l' ∧
      ((l'.votes 0).totalVoters =
        ((execOps (Ledger.init 0) [Op.create 1 "t" "d" ["a", "b"] 10 0]).votes 0).totalVoters + 1) ∧
      (l'.votes 0).revealedCounts =
        ((execOps (Ledger.init 0) [Op.create 1 "t" "d" ["a", "b"] 10 0]).votes 0).revealedCounts.set
          (specResolvedIndex [0, 0, 1]
            ((execOps (Ledger.init 0) [Op.create 1 "t" "d" ["a", "b"] 10 0]).votes 0).options.length)
          (((execOps (Ledger.init 0) [Op.create 1 "t" "d" ["a", "b"] 10 0]).votes 0).revealedCounts.getD
            (specResolvedIndex [0, 0, 1]
              ((execOps (Ledger.init 0) [Op.create 1 "t" "d" ["a", "b"] 10 0]).votes 0).options.length) 0 + 1) :=
  castVote_decode_fallback 0
    (execOps (Ledger.init 0) [Op.create 1 "t" "d" ["a", "b"] 10 0]) 0 [0, 0, 1] 2 5
    ⟨[Op.create 1 "t" "d" ["a", "b"] 10 0], rfl⟩ (by decide) (by decide) (by decide)

/-- C2: as long as no `revealVoteResults` has succeeded on a poll — recorded
exactly by the `voteRevealRequested` flag, which successful reveals set (second
conjunct) and no other transaction touches (third conjunct) — the sum of the
poll's `revealedCounts` equals its `totalVoters`, after any sequence of
transactions from deployment. -/
theorem sum_counts_eq_totalVoters :
    (∀ (o : Nat) (ops : List Op) (vid : Nat),
      (execOps (Ledger.init o) ops).voteRevealRequested vid = false →
      ((execOps (Ledger.init o) ops).votes vid).revealedCounts.sum =
        ((execOps (Ledger.init o) ops).votes vid).totalVoters) ∧
    (∀ (l : Ledger) (vid : Nat) (counts : List Nat) (s t : Nat) (l' : Ledger),
      revealVoteResults l vid counts s t = .ok l' →
      l'.voteRevealRequested vid = true) ∧
    (∀ (l : Ledger) (op : Op) (vid : Nat),
      (∀ s counts t, op ≠ .reveal s vid counts t) →
      (stepLedger l op).voteRevealRequested vid = l.voteRevealRequested vid) := by
  refine ⟨?_, ?_, ?_⟩
  · intro o ops vid hflag
    exact ((wf_execOps (wf_init o) ops) vid).2.2.2.2 hflag
  · intro l vid counts s t l' h
    obtain ⟨_, _, _, _, _, hl'⟩ := revealVoteResults_ok h
    subst hl'
    simp
  · intro l op vid hne
    cases hap : applyOp l op with
    | error e => rw [stepLedger_error hap]
    | ok l' =>
      rw [stepLedger_ok hap]
      cases op with
      | create sender title description options deadline now =>
        simp only [applyOp] at hap
        cases hcv : createVote l title description options deadline sender now with
        | error e => rw [hcv] at hap; cases hap
        | ok pr =>
          rw [hcv] at hap
          injection hap with hpr
          obtain ⟨l2, vid2⟩ := pr
          cases hpr
          obtain ⟨_, _, _, _, _, hl2⟩ := createVote_ok hcv
          subst hl2
          simp [setVote]
      | cast sender voteId p now =>
        obtain ⟨_, _, _, _, _, hl'⟩ := castVote_ok hap
        subst hl'
        simp [setVote]
      | reveal sender voteId counts now =>
        obtain ⟨_, _, _, _, _, hl'⟩ := revealVoteResults_ok hap
        subst hl'
        have hvv : vid ≠ voteId := fun hv => hne sender counts now (by rw [hv])
        simp [setVote, if_neg hvv]
      | endEarly sender voteId now =>
        obtain ⟨_, _, hl'⟩ := endVoteEarly_ok hap
        subst hl'
        simp [setVote]

theorem sum_counts_eq_totalVoters_witness :
    ((execOps (Ledger.init 0)
        [Op.create 1 "t" "d" ["a", "b"] 10 0,
         Op.cast 2 0 [0, 1] 5, Op.cast 3 0 [0, 0, 7] 6]).voteRevealRequested 0 = false) ∧
    ((execOps (Ledger.init 0)
        [Op.create 1 "t" "d" ["a", "b"] 10 0,
         Op.cast 2 0 [0, 1] 5, Op.cast 3 0 [0, 0, 7] 6]).votes 0).revealedCounts.sum =
      ((execOps (Ledger.init 0)
        [Op.create 1 "t" "d" ["a", "b"] 10 0,
         Op.cast 2 0 [0, 1] 5, Op.cast 3 0 [0, 0, 7] 6]).votes 0).totalVoters :=
  ⟨by decide,
   sum_counts_eq_totalVoters.1 0
     [Op.create 1 "t" "d" ["a", "b"] 10 0,
      Op.cast 2 0 [0, 1] 5, Op.cast 3 0 [0, 0, 7] 6] 0 (by decide)⟩

/-- C3: `castVote` checks its preconditions in order — existence
(`VoteNotFound`), deadline (`VoteExpired`, hit whenever the current time is at
or past the deadline), double vote (`AlreadyVoted`) — and accepts the vote
when all three hold. -/
theorem castVote_check_order (o : Nat) (l : Ledger) (vid : Nat) (p : List Nat)
    (s t : Nat) :
    ((l.votes vid).isActive = false →
      castVote l vid p s t = .error .VoteNotFound) ∧
    ((l.votes vid).isActive = true → (l.votes vid).deadline ≤ t →
      castVote l vid p s t = .error .VoteExpired) ∧
    ((l.votes vid).isActive = true → t < (l.votes vid).deadline →
      (l.votes vid).hasVoted s = true →
      castVote l vid p s t = .error .AlreadyVoted) ∧
    (Reachable o l → (l.votes vid).isActive = true →
      t < (l.votes vid).deadline → (l.votes vid).hasVoted s = false →
      ∃ l', castVote l vid p s t = .ok l') := by
  refine ⟨?_, ?_, ?_, ?_⟩
  · intro h1
    simp [castVote, h1]
  · intro h1 h2
    simp [castVote, h1, h2]
  · intro h1 h2 h3
    simp [castVote, h1, not_le.mpr h2, h3]
  · intro hre h1 h2 h3
    have hwf := wf_reachable hre
    have hn : 0 < (l.votes vid).options.length := ((hwf vid).2.2.1 h1).1
    have hlen : (l.votes vid).revealedCounts.length = (l.votes vid).options.length :=
      (hwf vid).2.1
    have hci := choiceIndexOf_lt p hn
    refine ⟨setVote l vid (castUpdate (l.votes vid) p s), ?_⟩
    simp [castVote, h1, h3, not_le.mpr h2, hlen, hci]

theorem castVote_check_order_witness :
    castVote (Ledger.init 0) 0 [] 1 5 = .error .VoteNotFound ∧
    castVote (execOps (Ledger.init 0) [Op.create 1 "t" "d" ["a", "b"] 10 0])
      0 [0, 1] 2 15 = .error .VoteExpired ∧
    castVote (execOps (Ledger.init 0)
        [Op.create 1 "t" "d" ["a", "b"] 10 0, Op.cast 2 0 [0, 1] 5])
      0 [0, 1] 2 6 = .error .AlreadyVoted ∧
    ∃ l', castVote (execOps (Ledger.init 0) [Op.create 1 "t" "d" ["a", "b"] 10 0])
      0 [0, 1] 2 5 = .ok l' :=
  ⟨(castVote_check_order 0 (Ledger.init 0) 0 [] 1 5).1 (by decide),
   (castVote_check_order 0 (execOps (Ledger.init 0)
      [Op.create 1 "t" "d" ["a", "b"] 10 0]) 0 [0, 1] 2 15).2.1
     (by decide) (by decide),
   (castVote_check_order 0 (execOps (Ledger.init 0)
      [Op.create 1 "t" "d" ["a", "b"] 10 0, Op.cast 2 0 [0, 1] 5]) 0 [0, 1] 2 6).2.2.1
     (by decide) (by decide) (by decide),
   (castVote_check_order 0 (execOps (Ledger.init 0)
      [Op.create 1 "t" "d" ["a", "b"] 10 0]) 0 [0, 1] 2 5).2.2.2
     ⟨[Op.create 1 "t" "d" ["a", "b"] 10 0], rfl⟩ (by decide) (by decide) (by decide)⟩

/-- C5: `revealVoteResults` checks its preconditions in order — existence
(`VoteNotFound`), authorization (`NotVoteCreator` when the caller is neither
the poll creator nor the owner), expiry (`VoteNotExpired` while the current
time is strictly before the deadline), not yet revealed
(`VoteAlreadyRevealed`), matching length (`InvalidOption`) — and on success
wholesale replaces `revealedCounts` with the supplied counts and sets
`isRevealed`. -/
theorem revealVoteResults_check_order (l : Ledger) (vid : Nat)
    (counts : List Nat) (s t : Nat) :
    ((l.votes vid).isActive = false →
      revealVoteResults l vid counts s t = .error .VoteNotFound) ∧
    ((l.votes vid).isActive = true → s ≠ (l.votes vid).creator → s ≠ l.owner →
      revealVoteResults l vid counts s t = .error .NotVoteCreator) ∧
    ((l.votes vid).isActive = true → (s = (l.votes vid).creator ∨ s = l.owner) →
      t < (l.votes vid).deadline →
      revealVoteResults l vid counts s t = .error .VoteNotExpired) ∧
    ((l.votes vid).isActive = true → (s = (l.votes vid).creator ∨ s = l.owner) →
      (l.votes vid).deadline ≤ t → (l.votes vid).isRevealed = true →
      revealVoteResults l vid counts s t = .error .VoteAlreadyRevealed) ∧
    ((l.votes vid).isActive = true → (s = (l.votes vid).creator ∨ s = l.owner) →
      (l.votes vid).deadline ≤ t → (l.votes vid).isRevealed = false →
      counts.length ≠ (l.votes vid).options.length →
      revealVoteResults l vid counts s t = .error .InvalidOption) ∧
    ((l.votes vid).isActive = true → (s = (l.votes vid).creator ∨ s = l.owner) →
      (l.votes vid).deadline ≤ t → (l.votes vid).isRevealed = false →
      counts.length = (l.votes vid).options.length →
      ∃ l', revealVoteResults l vid counts s t = .ok l' ∧
        (l'.votes vid).revealedCounts = counts ∧
        (l'.votes vid).isRevealed = true) := by
  refine ⟨?_, ?_, ?_, ?_, ?_, ?_⟩
  · intro h1
    simp [revealVoteResults, h1]
  · intro h1 h2 h3
    simp [revealVoteResults, h1, h2, h3]
  · intro h1 h2 h3
    have hna : ¬(s ≠ (l.votes vid).creator ∧ s ≠ l.owner) := by tauto
    simp [revealVoteResults, h1, hna, h3]
  · intro h1 h2 h3 h4
    have hna : ¬(s ≠ (l.votes vid).creator ∧ s ≠ l.owner) := by tauto
    simp [revealVoteResults, h1, hna, not_lt.mpr h3, h4]
  · intro h1 h2 h3 h4 h5
    have hna : ¬(s ≠ (l.votes vid).creator ∧ s ≠ l.owner) := by tauto
    simp [revealVoteResults, h1, hna, not_lt.mpr h3, h4, h5]
  · intro h1 h2 h3 h4 h5
    have hna : ¬(s ≠ (l.votes vid).creator ∧ s ≠ l.owner) := by tauto
    refine ⟨{ setVote l vid
        { l.votes vid with revealedCounts := counts, isRevealed := true } with
        voteRevealRequested := fun j => if j = vid then true else l.voteRevealRequested j },
      ?_, ?_, ?_⟩
    · simp [revealVoteResults, h1, hna, not_lt.mpr h3, h4, h5]
    · simp [setVote]
    · simp [setVote]

theorem revealVoteResults_check_order_witness :
    revealVoteResults (Ledger.init 0) 0 [] 1 5 = .error .VoteNotFound ∧
    revealVoteResults (execOps (Ledger.init 0)
        [Op.create 1 "t" "d" ["a", "b"] 10 0]) 0 [0, 0] 3 12 = .error .NotVoteCreator ∧
    revealVoteResults (execOps (Ledger.init 0)
        [Op.create 1 "t" "d" ["a", "b"] 10 0]) 0 [0, 0] 1 5 = .error .VoteNotExpired ∧
    revealVoteResults (execOps (Ledger.init 0)
        [Op.create 1 "t" "d" ["a", "b"] 10 0, Op.cast 2 0 [0, 1] 5])
      0 [0, 0] 1 12 = .error .VoteAlreadyRevealed ∧
    revealVoteResults (execOps (Ledger.init 0)
        [Op.create 1 "t" "d" ["a", "b"] 10 0]) 0 [7] 1 12 = .error .InvalidOption ∧
    ∃ l', revealVoteResults (execOps (Ledger.init 0)
        [Op.create 1 "t" "d" ["a", "b"] 10 0]) 0 [4, 9] 1 12 = .ok l' ∧
      (l'.votes 0).revealedCounts = [4, 9] ∧ (l'.votes 0).isRevealed = true :=
  ⟨(revealVoteResults_check_order (Ledger.init 0) 0 [] 1 5).1 (by decide),
   (revealVoteResults_check_order (execOps (Ledger.init 0)
      [Op.create 1 "t" "d" ["a", "b"] 10 0]) 0 [0, 0] 3 12).2.1
     (by decide) (by decide) (by decide),
   (revealVoteResults_check_order (execOps (Ledger.init 0)
      [Op.create 1 "t" "d" ["a", "b"] 10 0]) 0 [0, 0] 1 5).2.2.1
     (by decide) (by decide) (by decide),
   (revealVoteResults_check_order (execOps (Ledger.init 0)
      [Op.create 1 "t" "d" ["a", "b"] 10 0, Op.cast 2 0 [0, 1] 5]) 0 [0, 0] 1 12).2.2.2.1
     (by decide) (by decide) (by decide) (by decide),
   (revealVoteResults_check_order (execOps (Ledger.init 0)
      [Op.create 1 "t" "d" ["a", "b"] 10 0]) 0 [7] 1 12).2.2.2.2.1
     (by decide) (by decide) (by decide) (by decide) (by decide),
   (revealVoteResults_check_order (execOps (Ledger.init 0)
      [Op.create 1 "t" "d" ["a", "b"] 10 0]) 0 [4, 9] 1 12).2.2.2.2.2
     (by decide) (by decide) (by decide) (by decide) (by decide)⟩

/-- C6: `nextVoteId` starts at 0, a successful `createVote` returns the current
`nextVoteId` and increments it by exactly one, no other transaction changes
`nextVoteId`, and `getTotalVotes` returns `nextVoteId` — so ids are 0-indexed,
sequential, gap-free and never reused, and `getTotalVotes` counts the polls
created so far. -/
theorem poll_ids_sequential :
    (∀ o : Nat, (Ledger.init o).nextVoteId = 0) ∧
    (∀ (l : Ledger) (title description : String) (options : List String)
        (deadline sender now : Nat) (l' : Ledger) (vid : Nat),
      createVote l title description options deadline sender now = .ok (l', vid) →
      vid = l.nextVoteId ∧ l'.nextVoteId = l.nextVoteId + 1) ∧
    (∀ (l : Ledger) (op : Op),
      (∀ sender title description options deadline now,
        op ≠ .create sender title description options deadline now) →
      (stepLedger l op).nextVoteId = l.nextVoteId) ∧
    (∀ l : Ledger, getTotalVotes l = l.nextVoteId) := by
  refine ⟨fun o => rfl, ?_, ?_, fun l => rfl⟩
  · intro l title description options deadline sender now l' vid h
    obtain ⟨hvid, _, _, _, _, hl'⟩ := createVote_ok h
    subst hl'
    exact ⟨hvid, rfl⟩
  · intro l op hne
    cases hap : applyOp l op with
    | error e => rw [stepLedger_error hap]
    | ok l' =>
      rw [stepLedger_ok hap]
      cases op with
      | create sender title description options deadline now =>
        exact absurd rfl (hne sender title description options deadline now)
      | cast sender voteId p now =>
        obtain ⟨_, _, _, _, _, hl'⟩ := castVote_ok hap
        subst hl'
        rfl
      | reveal sender voteId counts now =>
        obtain ⟨_, _, _, _, _, hl'⟩ := revealVoteResults_ok hap
        subst hl'
        rfl
      | endEarly sender voteId now =>
        obtain ⟨_, _, hl'⟩ := endVoteEarly_ok hap
        subst hl'
        rfl

theorem poll_ids_sequential_witness :
    ((execOps (Ledger.init 0) [Op.create 1 "t" "d" ["a"] 10 0]).nextVoteId =
      (Ledger.init 0).nextVoteId + 1) ∧
    (stepLedger (execOps (Ledger.init 0) [Op.create 1 "t" "d" ["a"] 10 0])
      (Op.cast 2 0 [0, 0] 5)).nextVoteId =
      (execOps (Ledger.init 0) [Op.create 1 "t" "d" ["a"] 10 0]).nextVoteId :=
  ⟨by decide,
   poll_ids_sequential.2.2.1 (execOps (Ledger.init 0) [Op.create 1 "t" "d" ["a"] 10 0])
     (Op.cast 2 0 [0, 0] 5) (fun _ _ _ _ _ _ h => Op.noConfusion h)⟩

/-- C7: a failing transaction leaves the whole storage unchanged (first
conjunct, the revert semantics of every rejection); a second `castVote` from a
principal who already has `hasVoted == true` always returns an error (second
conjunct) and therefore leaves the storage — in particular `revealedCounts`
and `totalVoters` — untouched (third conjunct). -/
theorem failed_call_no_state_change :
    (∀ (l : Ledger) (op : Op) (e : Err),
      applyOp l op = .error e → stepLedger l op = l) ∧
    (∀ (l : Ledger) (vid : Nat) (p : List Nat) (s t : Nat),
      (l.votes vid).hasVoted s = true →
      ∃ e, castVote l vid p s t = .error e) ∧
    (∀ (l : Ledger) (vid : Nat) (p : List Nat) (s t : Nat),
      (l.votes vid).hasVoted s = true →
      stepLedger l (.cast s vid p t) = l) := by
  have hsecond : ∀ (l : Ledger) (vid : Nat) (p : List Nat) (s t : Nat),
      (l.votes vid).hasVoted s = true → ∃ e, castVote l vid p s t = .error e := by
    intro l vid p s t hv
    simp only [castVote, hv, if_true]
    split_ifs with h1 h2
    · exact ⟨.VoteNotFound, rfl⟩
    · exact ⟨.VoteExpired, rfl⟩
    · exact ⟨.AlreadyVoted, rfl⟩
  refine ⟨?_, hsecond, ?_⟩
  · intro l op e h
    exact stepLedger_error h
  · intro l vid p s t hv
    obtain ⟨e, he⟩ := hsecond l vid p s t hv
    exact stepLedger_error (show applyOp l (Op.cast s vid p t) = .error e from he)

theorem failed_call_no_state_change_witness :
    stepLedger (execOps (Ledger.init 0)
        [Op.create 1 "t" "d" ["a", "b"] 10 0, Op.cast 2 0 [0, 1] 5])
      (Op.cast 2 0 [0, 0] 6) =
    execOps (Ledger.init 0)
      [Op.create 1 "t" "d" ["a", "b"] 10 0, Op.cast 2 0 [0, 1] 5] :=
  failed_call_no_state_change.2.2
    (execOps (Ledger.init 0) [Op.create 1 "t" "d" ["a", "b"] 10 0, Op.cast 2 0 [0, 1] 5])
    0 [0, 0] 2 6 (by decide)

/-- C8: in every reachable storage state, every poll slot satisfies
`revealedCounts.length == options.length`; moreover creation initializes
`revealedCounts` as a zero-filled list with exactly `options.length`
entries. -/
theorem counts_length_eq_options_length :
    (∀ (o : Nat) (l : Ledger), Reachable o l →
      ∀ vid, (l.votes vid).revealedCounts.length = (l.votes vid).options.length) ∧
    (∀ (l : Ledger) (title description : String) (options : List String)
        (deadline sender now : Nat) (l' : Ledger) (vid : Nat),
      createVote l title description options deadline sender now = .ok (l', vid) →
      (l'.votes vid).revealedCounts = List.replicate options.length 0) := by
  constructor
  · intro o l hre vid
    exact ((wf_reachable hre) vid).2.1
  · intro l title description options deadline sender now l' vid h
    obtain ⟨hvid, _, _, _, _, hl'⟩ := createVote_ok h
    subst hl'
    subst hvid
    simp [setVote]

theorem counts_length_eq_options_length_witness :
    ((execOps (Ledger.init 0)
        [Op.create 1 "t" "d" ["a", "b", "c"] 10 0, Op.cast 2 0 [0, 2] 5]).votes 0).revealedCounts.length =
      ((execOps (Ledger.init 0)
        [Op.create 1 "t" "d" ["a", "b", "c"] 10 0, Op.cast 2 0 [0, 2] 5]).votes 0).options.length :=
  counts_length_eq_options_length.1 0
    (execOps (Ledger.init 0) [Op.create 1 "t" "d" ["a", "b", "c"] 10 0, Op.cast 2 0 [0, 2] 5])
    ⟨[Op.create 1 "t" "d" ["a", "b", "c"] 10 0, Op.cast 2 0 [0, 2] 5], rfl⟩ 0

/-- C9 counterexample: a reachable state with one cast vote on poll 0 where
`revealVoteResults` fails, but with `NotVoteCreator` (the caller is neither
creator nor owner) rather than `VoteAlreadyRevealed` — so "always fails with
VoteAlreadyRevealed" does not hold as stated. -/
theorem reveal_after_vote_counterexample :
    (((execOps (Ledger.init 0)
        [Op.create 1 "t" "d" ["a", "b"] 10 0, Op.cast 2 0 [0, 0] 5]).votes 0).totalVoters = 1) ∧
    revealVoteResults (execOps (Ledger.init 0)
        [Op.create 1 "t" "d" ["a", "b"] 10 0, Op.cast 2 0 [0, 0] 5]) 0 [1, 0] 3 10 =
      .error .NotVoteCreator ∧
    Err.NotVoteCreator ≠ Err.VoteAlreadyRevealed :=
  ⟨by decide, rfl, by decide⟩

/-- C9 (amended): in every reachable state an unrevealed poll has
`totalVoters == 0`, so `revealVoteResults` can only succeed on a poll with no
cast votes; on a poll with at least one cast vote it always fails, and the
error is `VoteAlreadyRevealed` precisely when the earlier checks pass (the
poll is active, the caller is creator or owner, and the deadline has passed) —
otherwise it is the error of the first failing earlier check. -/
theorem reveal_only_on_unvoted (o : Nat) (l : Ledger) (vid : Nat)
    (hre : Reachable o l) :
    ((l.votes vid).isRevealed = false → (l.votes vid).totalVoters = 0) ∧
    (∀ counts s t l', revealVoteResults l vid counts s t = .ok l' →
      (l.votes vid).totalVoters = 0) ∧
    (∀ counts s t, 0 < (l.votes vid).totalVoters →
      ∃ e, revealVoteResults l vid counts s t = .error e) ∧
    (∀ counts s t, 0 < (l.votes vid).totalVoters →
      (l.votes vid).isActive = true → (s = (l.votes vid).creator ∨ s = l.owner) →
      (l.votes vid).deadline ≤ t →
      revealVoteResults l vid counts s t = .error .VoteAlreadyRevealed) := by
  have hwf := wf_reachable hre
  have hrev_of_voted : ∀ cond : 0 < (l.votes vid).totalVoters,
      (l.votes vid).isRevealed = true := by
    intro ht
    cases hb : (l.votes vid).isRevealed with
    | false =>
      have := (hwf vid).2.2.2.1 hb
      omega
    | true => rfl
  refine ⟨?_, ?_, ?_, ?_⟩
  · exact (hwf vid).2.2.2.1
  · intro counts s t l' h
    obtain ⟨_, _, _, hrev, _, _⟩ := revealVoteResults_ok h
    exact (hwf vid).2.2.2.1 hrev
  · intro counts s t ht
    have hrev := hrev_of_voted ht
    simp only [revealVoteResults, hrev, if_true]
    split_ifs with h1 h2 h3
    · exact ⟨.VoteNotFound, rfl⟩
    · exact ⟨.NotVoteCreator, rfl⟩
    · exact ⟨.VoteNotExpired, rfl⟩
    · exact ⟨.VoteAlreadyRevealed, rfl⟩
  · intro counts s t ht hact hauth hdl
    have hrev := hrev_of_voted ht
    have hna : ¬(s ≠ (l.votes vid).creator ∧ s ≠ l.owner) := by tauto
    simp [revealVoteResults, hact, hna, not_lt.mpr hdl, hrev]

theorem reveal_only_on_unvoted_witness :
    revealVoteResults (execOps (Ledger.init 0)
        [Op.create 1 "t" "d" ["a", "b"] 10 0, Op.cast 2 0 [0, 1] 5]) 0 [5, 5] 1 10 =
      .error .VoteAlreadyRevealed :=
  (reveal_only_on_unvoted 0
    (execOps (Ledger.init 0) [Op.create 1 "t" "d" ["a", "b"] 10 0, Op.cast 2 0 [0, 1] 5]) 0
    ⟨[Op.create 1 "t" "d" ["a", "b"] 10 0, Op.cast 2 0 [0, 1] 5], rfl⟩).2.2.2
    [5, 5] 1 10 (by decide) (by decide) (by decide) (by decide)

/-- C10: for a poll id never allocated by a creation call (i.e. at or above
`nextVoteId`), the unchecked views return defaults rather than failing:
`isVoteExpired` is `true` for every current time (the zero deadline is never
strictly greater than `block.timestamp`), and `hasAddressVoted` is `false`
for every address. -/
theorem unallocated_poll_defaults (o : Nat) (l : Ledger) (vid : Nat)
    (hre : Reachable o l) (hun : l.nextVoteId ≤ vid) :
    (∀ t, isVoteExpired l vid t = true) ∧
    (∀ a, hasAddressVoted l vid a = false) := by
  have hd := ((wf_reachable hre) vid).1 hun
  constructor
  · intro t
    simp [isVoteExpired, hd, defaultVote]
  · intro a
    simp [hasAddressVoted, hd, defaultVote]

theorem unallocated_poll_defaults_witness :
    isVoteExpired (execOps (Ledger.init 0) [Op.create 1 "t" "d" ["a"] 10 0]) 7 0 = true ∧
    hasAddressVoted (execOps (Ledger.init 0) [Op.create 1 "t" "d" ["a"] 10 0]) 7 1 = false :=
  ⟨(unallocated_poll_defaults 0
      (execOps (Ledger.init 0) [Op.create 1 "t" "d" ["a"] 10 0]) 7
      ⟨[Op.create 1 "t" "d" ["a"] 10 0], rfl⟩ (by decide)).1 0,
   (unallocated_poll_defaults 0
      (execOps (Ledger.init 0) [Op.create 1 "t" "d" ["a"] 10 0]) 7
      ⟨[Op.create 1 "t" "d" ["a"] 10 0], rfl⟩ (by decide)).2 1⟩

/-- C4 counterexample: under a monotonic clock, a poll created at time 5 with
deadline 10 has its deadline set to 20 — strictly later than the original
deadline — by an `endVoteEarly` call at time 20, refuting
"never later than the poll's original deadline". -/
theorem endVoteEarly_deadline_counterexample :
    MonoFrom 0 [Op.create 1 "t" "d" ["a"] 10 5, Op.endEarly 1 0 20] ∧
    ((execOps (Ledger.init 0) [Op.create 1 "t" "d" ["a"] 10 5]).votes 0).deadline = 10 ∧
    ((execOps (Ledger.init 0)
        [Op.create 1 "t" "d" ["a"] 10 5, Op.endEarly 1 0 20]).votes 0).deadline = 20 ∧
    10 < 20 :=
  ⟨⟨by decide, by decide, trivial⟩, by decide, by decide, by decide⟩

/-- C4 (amended): no transaction other than a successful `endVoteEarly` on the
poll itself ever changes an existing poll's `deadline` (first conjunct);
`endVoteEarly` sets it to the current time (second conjunct); under the
monotonic clock the resulting deadline is never earlier than the poll's
creation time (third conjunct, via the ghost `createdAt`); but it can be
strictly later than the original deadline, as the counterexample shows. -/
theorem deadline_changed_only_by_endVoteEarly :
    (∀ (o : Nat) (l : Ledger) (op : Op) (id : Nat), Reachable o l →
      (l.votes id).isActive = true →
      (∀ s t, op ≠ .endEarly s id t) →
      ((stepLedger l op).votes id).deadline = (l.votes id).deadline) ∧
    (∀ (l : Ledger) (id s t : Nat) (l' : Ledger),
      endVoteEarly l id s t = .ok l' → (l'.votes id).deadline = t) ∧
    (∀ (o t0 : Nat) (ops : List Op), MonoFrom t0 ops →
      ∀ id, ((execOps (Ledger.init o) ops).votes id).isActive = true →
        ((execOps (Ledger.init o) ops).votes id).createdAt ≤
          ((execOps (Ledger.init o) ops).votes id).deadline) := by
  refine ⟨?_, ?_, ?_⟩
  · intro o l op id hre hact hne
    cases hap : applyOp l op with
    | error e => rw [stepLedger_error hap]
    | ok l' =>
      rw [stepLedger_ok hap]
      cases op with
      | create sender title description options deadline now =>
        simp only [applyOp] at hap
        cases hcv : createVote l title description options deadline sender now with
        | error e => rw [hcv] at hap; cases hap
        | ok pr =>
          rw [hcv] at hap
          injection hap with hpr
          obtain ⟨l2, vid2⟩ := pr
          cases hpr
          obtain ⟨_, _, _, _, _, hl2⟩ := createVote_ok hcv
          subst hl2
          have hlt : id < l.nextVoteId := active_lt_nextVoteId (wf_reachable hre) hact
          simp [setVote, Nat.ne_of_lt hlt]
      | cast sender voteId p now =>
        obtain ⟨_, _, _, _, _, hl'⟩ := castVote_ok hap
        subst hl'
        by_cases hid : id = voteId
        · subst hid
          simp [setVote, castUpdate]
        · simp [setVote, hid]
      | reveal sender voteId counts now =>
        obtain ⟨_, _, _, _, _, hl'⟩ := revealVoteResults_ok hap
        subst hl'
        by_cases hid : id = voteId
        · subst hid
          simp [setVote]
        · simp [setVote, hid]
      | endEarly sender voteId now =>
        obtain ⟨_, _, hl'⟩ := endVoteEarly_ok hap
        subst hl'
        have hvv : id ≠ voteId := fun hv => hne sender now (by rw [hv])
        simp [setVote, hvv]
  · intro l id s t l' h
    obtain ⟨_, _, hl'⟩ := endVoteEarly_ok h
    subst hl'
    simp [setVote]
  · intro o t0 ops hm id hact
    obtain ⟨t', htok⟩ := timeok_execOps (timeok_init t0 o) hm
    exact (htok id hact).2

theorem deadline_changed_only_by_endVoteEarly_witness :
    ((stepLedger (execOps (Ledger.init 0) [Op.create 1 "t" "d" ["a"] 10 0])
        (Op.cast 2 0 [0, 0] 5)).votes 0).deadline =
      ((execOps (Ledger.init 0) [Op.create 1 "t" "d" ["a"] 10 0]).votes 0).deadline :=
  deadline_changed_only_by_endVoteEarly.1 0
    (execOps (Ledger.init 0) [Op.create 1 "t" "d" ["a"] 10 0])
    (Op.cast 2 0 [0, 0] 5) 0
    ⟨[Op.create 1 "t" "d" ["a"] 10 0], rfl⟩ (by decide)
    (fun _ _ h => Op.noConfusion h)
